import Mathlib

/-!
# Verification of the TradingAgents batch orchestration core

Shallow embedding of the repository's task-execution and batch-orchestration
code (`cli/agents.py`, `cli/run_all_agents.py`, `cli/independent_agent.py`,
`scripts/master_workflow.py`, `scripts/json_to_word.py`) together with a
spec-side model of the bounded tool-call loop (the `tradingagents` package
that implements it is not part of the sources at hand, so that state machine
is modelled from the specification).

External collaborators (the LLM graph invocation, subprocess spawning, the
file system, the `python-docx` renderer, `json` byte encoding) are abstracted
as explicit parameters: a function producing the graph outcome, a function
giving each subprocess outcome, explicit lists of discovered files, and a
JSON value AST.
-/

namespace GitCode

/-! ## `cli/agents.py` : agent table and `execute_agent` -/

/-- The `AGENTS` dict of `cli/agents.py` (agent id ↦ display name); the
`description`/`color` fields are presentation-only and dropped. -/
def AGENTS : List (String × String) :=
  [("market", "Market Analyst"),
   ("social", "Social Media Analyst"),
   ("news", "News Analyst"),
   ("fundamentals", "Fundamentals Analyst"),
   ("bull", "Bull Researcher"),
   ("bear", "Bear Researcher"),
   ("trader", "Trader"),
   ("risky", "Risky Debater"),
   ("neutral", "Neutral Debater"),
   ("safe", "Safe Debater")]

/-- Python `AGENTS[agent_type]["name"]`: `some` when the key is present,
`none` models the `KeyError` raised on a missing key. -/
def lookupAgentName (a : String) : Option String :=
  (AGENTS.find? (fun p => p.1 == a)).map (·.2)

/-- The keys of the `factory_map` dict in `execute_agent`: the agent types
with a real single-analyst graph execution. -/
def factory_map_keys : List String :=
  ["market", "social", "news", "fundamentals"]

/-- Outcome of the `graph_single.invoke` call inside `execute_agent`'s
`try` block, abstracted: either the final state's extracted report
(`final_state.get(report_key_map[agent_type])`, which Python may return as
`None`, hence `Option String`), or an exception message `e`. -/
inductive GraphRun where
  | ok (report : Option String)
  | fail (errMsg : String)
deriving DecidableEq

/-- A result record as built by `execute_agent`'s final dict literal:
seven fields; `analysis` is `Option String` because Python may store `None`. -/
structure ResultDict where
  agent : String
  agent_name : String
  ticker : String
  date : String
  timestamp : String
  status : String
  analysis : Option String
deriving DecidableEq

/-- `execute_agent(graph, agent_type, initial_state, ticker, date)` of
`cli/agents.py`. The graph invocation is abstracted by `g : GraphRun`.
For an analyst agent the `try` block maps an exception to
`status = "error"`; for a non-analyst agent the placeholder branch reads
`AGENTS[agent_type]['name']`, which raises `KeyError` (`Except.error`) for
an unknown agent type. -/
def execute_agent (agentType ticker date timestamp : String) (g : GraphRun) :
    Except String ResultDict :=
  if factory_map_keys.contains agentType then
    let sa : String × Option String :=
      match g with
      | .ok report => ("completed", report)
      | .fail e => ("error", some ("Agent execution failed: " ++ e))
    match lookupAgentName agentType with
    | some name =>
        .ok ⟨agentType, name, ticker, date, timestamp, sa.1, sa.2⟩
    | none => .error ("KeyError: " ++ agentType)
  else
    match lookupAgentName agentType with
    | some name =>
        .ok ⟨agentType, name, ticker, date, timestamp, "completed",
          some ("Analysis from " ++ name ++ " for " ++ ticker ++ " (placeholder)")⟩
    | none => .error ("KeyError: " ++ agentType)

/-! ## JSON values and the persisted result record

`cli/agents.py` persists the record with `json.dump(result, f)` and reads it
back with `json.load` (`compare`). The byte-level codec is Python's `json`
standard library — the OutputStore collaborator layer of the spec — so the
store is modelled at the JSON-value level: a record is written as an object
(ordered key/value list mirroring the dict literal) and read back by key. -/

/-- JSON values occurring in a result record: strings and `null`. -/
inductive Jv where
  | str (s : String)
  | null
deriving DecidableEq

/-- The JSON object `json.dump` writes for `execute_agent`'s result dict:
the seven keys in the dict literal's order. -/
def record_to_json (r : ResultDict) : List (String × Jv) :=
  [("agent", .str r.agent),
   ("agent_name", .str r.agent_name),
   ("ticker", .str r.ticker),
   ("date", .str r.date),
   ("timestamp", .str r.timestamp),
   ("status", .str r.status),
   ("analysis", match r.analysis with | some s => .str s | none => .null)]

/-- Key lookup in a parsed JSON object (Python `data[k]` / `data.get(k)`). -/
def jlookup (obj : List (String × Jv)) (k : String) : Option Jv :=
  (obj.find? (fun p => p.1 == k)).map (·.2)

/-- Read a mandatory string field. -/
def asString : Option Jv → Option String
  | some (.str s) => some s
  | _ => none

/-- Read a string-or-null field. -/
def asNullableString : Option Jv → Option (Option String)
  | some (.str s) => some (some s)
  | some .null => some none
  | none => none

/-- Rebuild a `ResultDict` from a parsed JSON object, as `compare` /
`run_all_agents` read the persisted file back field by field. -/
def json_to_record (obj : List (String × Jv)) : Option ResultDict := do
  let agent ← asString (jlookup obj "agent")
  let agent_name ← asString (jlookup obj "agent_name")
  let ticker ← asString (jlookup obj "ticker")
  let date ← asString (jlookup obj "date")
  let timestamp ← asString (jlookup obj "timestamp")
  let status ← asString (jlookup obj "status")
  let analysis ← asNullableString (jlookup obj "analysis")
  pure ⟨agent, agent_name, ticker, date, timestamp, status, analysis⟩

/-! ## Ticker handling of the entry points -/

/-- Python `str.upper()`, modelled character-wise. -/
def py_upper (s : String) : String :=
  String.mk (s.data.map Char.toUpper)

/-- `cli/agents.py` `run`: output path `Path(output_dir) / ticker.upper() / date`,
as its list of path components. -/
def agents_run_output_path (outputDir ticker date : String) : List String :=
  [outputDir, py_upper ticker, date]

/-- `cli/agents.py` `run` invokes
`execute_agent(graph, agent, initial_state, ticker.upper(), date)`. -/
def agents_run_execute (agentType ticker date timestamp : String) (g : GraphRun) :
    Except String ResultDict :=
  execute_agent agentType (py_upper ticker) date timestamp g

/-- `cli/run_all_agents.py` `run`, line `ticker = ticker.upper()`. -/
def run_all_normalize_ticker (ticker : String) : String :=
  py_upper ticker

/-- `scripts/master_workflow.py` `AnalysisOrchestrator.__init__`,
line `self.ticker = ticker.upper()`. -/
def orchestrator_ticker (ticker : String) : String :=
  py_upper ticker

/-- `cli/independent_agent.py` `run_independent_agent`: output path
`Path(output_dir) / ticker / trade_date` — no `.upper()` anywhere. -/
def independent_agent_output_path (outputDir ticker tradeDate : String) : List String :=
  [outputDir, ticker, tradeDate]

/-- `cli/independent_agent.py` `run_agent_graph`: the `"ticker"` field of the
output dict is the ticker exactly as passed in. -/
def independent_agent_record_ticker (ticker : String) : String :=
  ticker

/-! ## `cli/run_all_agents.py` : batch run of selected agents -/

/-- `DEFAULT_AGENT_ORDER` of `cli/run_all_agents.py`. -/
def DEFAULT_AGENT_ORDER : List String :=
  ["market", "social", "news", "fundamentals", "bull", "bear",
   "trader", "risky", "neutral", "safe"]

/-- Character-level splitter: cut the character stream at every separator,
dropping empty tokens; `acc` holds the current token's characters reversed. -/
def split_tokens (sep : Char → Bool) : List Char → List Char → List String
  | [], acc => if acc.isEmpty then [] else [String.mk acc.reverse]
  | c :: rest, acc =>
    if sep c then
      (if acc.isEmpty then [] else [String.mk acc.reverse]) ++ split_tokens sep rest []
    else
      split_tokens sep rest (c :: acc)

/-- `[tok.strip() for tok in agents.replace(",", " ").split() if tok.strip()]`:
replacing commas by spaces and then splitting on whitespace runs (dropping
empty tokens, which also makes the `strip` a no-op) equals splitting on
characters that are whitespace or a comma. -/
def tokenize_agents (s : String) : List String :=
  split_tokens (fun c => c.isWhitespace || c == ',') s.data []

/-- The agent-list validation of `run` in `cli/run_all_agents.py`
(lines 92–102): `none`/blank selects `DEFAULT_AGENT_ORDER`; otherwise the
tokens are checked against `AGENTS` and the run exits with the list of
unknown ids (`Except.error`) before anything executes. Tokens are kept as
given — duplicates included. -/
def choose_agents (agentsOpt : Option String) : Except (List String) (List String) :=
  match agentsOpt with
  | none => .ok DEFAULT_AGENT_ORDER
  | some s =>
    -- `len(agents.strip()) == 0` : every character is whitespace
    if s.data.all Char.isWhitespace then .ok DEFAULT_AGENT_ORDER
    else
      let tokens := tokenize_agents s
      let bad := tokens.filter (fun a => (lookupAgentName a).isNone)
      if !bad.isEmpty then .error bad else .ok tokens

/-- Observable outcome of one `run` invocation of `cli/run_all_agents.py`:
`exitCode = some 1` models `typer.Exit(1)` raised during validation (before
the execution loop); `written` is the list of JSON files written; `results`
is the `(agent, status)` summary list accumulated by the loop. -/
structure RunAllOutcome where
  exitCode : Option Nat
  written : List String
  results : List (String × String)
deriving DecidableEq

/-- `run` of `cli/run_all_agents.py`. `dateValid` abstracts
`datetime.strptime(date, "%Y-%m-%d")` succeeding; `exec` abstracts one
`execute_agent` call per agent (per-agent graph execution). The per-agent
loop writes one JSON file on success and records `"error"` with the
exception text on failure, never aborting the loop. -/
def run_all_agents (dateValid : Bool) (agentsOpt : Option String)
    (exec : String → Except String ResultDict) : RunAllOutcome :=
  if !dateValid then ⟨some 1, [], []⟩
  else
    match choose_agents agentsOpt with
    | .error _ => ⟨some 1, [], []⟩
    | .ok agentsToRun =>
      let step := fun (acc : List String × List (String × String)) (a : String) =>
        match exec a with
        | .ok _ => (acc.1 ++ [a ++ "_analysis.json"], acc.2 ++ [(a, "completed")])
        | .error e => (acc.1, acc.2 ++ [(a, "error: " ++ e)])
      let wr := agentsToRun.foldl step ([], [])
      ⟨none, wr.1, wr.2⟩

/-! ## `scripts/master_workflow.py` : AnalysisOrchestrator -/

/-- Outcome of one `subprocess.run` of an agent in `run_agents`
(lines 122–148): normal exit with a return code, `subprocess.TimeoutExpired`,
or any other exception. -/
inductive ProcOutcome where
  | exit (code : Nat)
  | timeout
  | exn (msg : String)
deriving DecidableEq

/-- Whether one iteration of the `run_agents` loop appends the agent to
`failed_agents`: non-zero return code, timeout, or exception. -/
def agent_failed : ProcOutcome → Bool
  | .exit c => c != 0
  | .timeout => true
  | .exn _ => true

/-- The step-by-step trace of the `run_agents` loop: every agent in the
list is processed in order (the loop never breaks), paired with whether it
was recorded as failed. -/
def run_agents_trace (outcome : String → ProcOutcome) : List String → List (String × Bool)
  | [] => []
  | a :: rest => (a, agent_failed (outcome a)) :: run_agents_trace outcome rest

/-- The `failed_agents` list accumulated by `run_agents`. -/
def failed_agents (outcome : String → ProcOutcome) (agents : List String) : List String :=
  ((run_agents_trace outcome agents).filter (fun p => p.2)).map Prod.fst

/-- `run_agents`'s return value: `len(failed_agents) < len(self.agents)` —
true iff at least one agent succeeded. -/
def run_agents_ok (outcome : String → ProcOutcome) (agents : List String) : Bool :=
  (failed_agents outcome agents).length < agents.length

/-- The inputs and environment of one `AnalysisOrchestrator.run`, with the
file system and subprocesses abstracted: existence booleans, the
`strptime` outcome, each agent subprocess's outcome, the JSON files the
`discover_json_files` glob finds, and the outcome of `convert_to_word`
(whether `self.word_files` ends up non-empty). -/
structure WorkflowEnv where
  venvExists : Bool
  cliExists : Bool
  converterExists : Bool
  ticker : String
  dateValid : Bool
  agents : List String
  agentOutcome : String → ProcOutcome
  resultsDirExists : Bool
  jsonFiles : List String
  convertOk : Bool

/-- `validate_setup` (lines 62–100): venv, CLI module, converter script,
non-empty ticker, parseable date. It never inspects `self.agents`. -/
def validate_setup (e : WorkflowEnv) : Bool :=
  e.venvExists && e.cliExists && e.converterExists &&
    (e.ticker.length != 0) && e.dateValid

/-- `discover_json_files` (lines 155–175): results directory exists and the
glob finds at least one JSON file. -/
def discover_ok (e : WorkflowEnv) : Bool :=
  e.resultsDirExists && !e.jsonFiles.isEmpty

/-- `AnalysisOrchestrator.run` (lines 289–321): validate, run agents
(failure only logs a warning), discover, convert, summary. Returns the
boolean `main` turns into the exit code. -/
def workflow_run (e : WorkflowEnv) : Bool :=
  if !validate_setup e then false
  else
    -- run_agents is executed; its boolean only triggers a warning message
    let _ := run_agents_ok e.agentOutcome e.agents
    if !discover_ok e then false
    else if !e.convertOk then false
    else true

/-- `main` (lines 364–373): `sys.exit(0 if success else 1)`. -/
def main_exit_code (e : WorkflowEnv) : Nat :=
  if workflow_run e then 0 else 1

/-! ## `scripts/json_to_word.py` : the Transform stage -/

/-- The individual-documents branch of `batch_json_to_word`
(lines 305–317): for each JSON file in order, try to render it
(`render f` abstracts `json_to_word`, returning the created path or the
exception text); an error is printed and the file skipped; the loop
continues with the remaining files and returns `created_files`. -/
def batch_json_to_word_individual (render : String → Except String String) :
    List String → List String
  | [] => []
  | f :: rest =>
    match render f with
    | .ok out => out :: batch_json_to_word_individual render rest
    | .error _ => batch_json_to_word_individual render rest

/-- Exit code of `python json_to_word.py <dir> -b`: `main` exits 1 only when
an exception escapes `batch_json_to_word`, which in batch mode happens
exactly when the input directory does not exist — per-file rendering errors
are caught inside the loop. -/
def json_to_word_script_exit (dirExists : Bool) : Nat :=
  if dirExists then 0 else 1

/-- `AnalysisOrchestrator.convert_to_word` (lines 177–254): run the
converter script (fatal if its exit code is non-zero), collect the
individually created documents, then run the combined-document pass
(`combinedSaveOk` abstracts `doc.save` succeeding there; its failure is
only a warning) and return `len(self.word_files) > 0`. -/
def convert_to_word (dirExists : Bool) (files : List String)
    (render : String → Except String String) (combinedSaveOk : Bool) : Bool :=
  if json_to_word_script_exit dirExists != 0 then false
  else
    let created := batch_json_to_word_individual render files
    let combined :=
      if dirExists && combinedSaveOk && !files.isEmpty then
        ["Combined_Analysis.docx"]
      else []
    !(created ++ combined).isEmpty

/-! ## The bounded tool-call loop (TaskGraph)

Modelled from the spec: the `tradingagents` package implementing
`ConditionalLogic`, `Propagator` and the per-analyst graph wired up in
`execute_agent` (lines 436–459) is not among the sources, so the state
machine is taken from spec §4.1: `Produce → Decide → {InvokeTools,
Finalize}`, with `InvokeTools → Produce`; `Decide` continues iff the latest
producer message requested at least one tool invocation and
`toolCallsRemaining > 0`; `InvokeTools` decrements `toolCallsRemaining` by
one per call, never below zero. -/

/-- Modelled from the spec: message roles (§3). -/
inductive Role where
  | producer
  | tool
  | system
deriving DecidableEq

/-- Modelled from the spec: a message of the conversation log (§3). -/
structure Message where
  role : Role
  content : String
  toolInvocations : List (String × String)
deriving DecidableEq

/-- Modelled from the spec: the mutable per-execution record (§3);
`toolCallsRemaining` is an integer counter clamped at zero. -/
structure ConversationState where
  messageLog : List Message
  subject : String
  asOf : String
  toolCallsRemaining : Int
deriving DecidableEq

/-- Modelled from the spec: one budget decrement, "never below zero". -/
def decrementBudget (r : Int) : Int :=
  max (r - 1) 0

/-- Modelled from the spec: `InvokeTools(message)` — call the gateway for
each requested invocation, append the tool-role messages, decrement the
budget once per call. -/
def InvokeTools (gateway : String → String → String) (m : Message)
    (s : ConversationState) : ConversationState :=
  { s with
    messageLog := s.messageLog ++
      m.toolInvocations.map (fun na => ⟨Role.tool, gateway na.1 na.2, []⟩),
    toolCallsRemaining :=
      m.toolInvocations.foldl (fun r _ => decrementBudget r) s.toolCallsRemaining }

/-- Modelled from the spec: the `Decide` continuation rule — continue to
`InvokeTools` iff the latest producer message requested at least one tool
invocation and `toolCallsRemaining > 0`. -/
def Decide (m : Message) (s : ConversationState) : Bool :=
  !m.toolInvocations.isEmpty && decide (0 < s.toolCallsRemaining)

/-- Modelled from the spec: drive the task graph with the given fuel,
counting `Produce` steps. Each round appends the produced message; if
`Decide` continues, the tools are invoked and the loop repeats, otherwise
the execution finalizes with the state and the number of `Produce` steps
taken. `none` means the fuel ran out before `Finalize`. -/
def run_task_loop (producer : ConversationState → Message)
    (gateway : String → String → String) :
    Nat → ConversationState → Nat → Option (ConversationState × Nat)
  | 0, _, _ => none
  | fuel + 1, s, produceCount =>
    let m := producer s
    let s1 : ConversationState := { s with messageLog := s.messageLog ++ [m] }
    if Decide m s1 then
      run_task_loop producer gateway fuel (InvokeTools gateway m s1) (produceCount + 1)
    else
      some (s1, produceCount + 1)

/-! ## Theorems -/

/-! ### Budget lemmas for the tool-call loop -/

theorem decrementBudget_nonneg (r : Int) : 0 ≤ decrementBudget r :=
  le_max_right _ _

theorem decrementBudget_le_self {r : Int} (h : 0 ≤ r) : decrementBudget r ≤ r :=
  max_le (by omega) h

theorem foldl_dec_nonneg : ∀ (l : List (String × String)) {r : Int}, 0 ≤ r →
    0 ≤ l.foldl (fun r _ => decrementBudget r) r
  | [], _, h => h
  | _ :: l, r, _ => foldl_dec_nonneg l (decrementBudget_nonneg r)

theorem foldl_dec_le_self : ∀ (l : List (String × String)) {r : Int}, 0 ≤ r →
    l.foldl (fun r _ => decrementBudget r) r ≤ r
  | [], _, _ => le_refl _
  | _ :: l, r, h =>
    le_trans (foldl_dec_le_self l (decrementBudget_nonneg r)) (decrementBudget_le_self h)

theorem foldl_dec_decreases {l : List (String × String)} {r : Int}
    (hl : l ≠ []) (hr : 1 ≤ r) :
    l.foldl (fun r _ => decrementBudget r) r ≤ r - 1 := by
  cases l with
  | nil => exact absurd rfl hl
  | cons a l =>
    have h1 : decrementBudget r = r - 1 := by
      unfold decrementBudget; omega
    calc (a :: l).foldl (fun r _ => decrementBudget r) r
        = l.foldl (fun r _ => decrementBudget r) (decrementBudget r) := rfl
      _ ≤ decrementBudget r := foldl_dec_le_self l (decrementBudget_nonneg r)
      _ = r - 1 := h1

theorem invokeTools_nonneg (gateway : String → String → String) (m : Message)
    {s : ConversationState} (h : 0 ≤ s.toolCallsRemaining) :
    0 ≤ (InvokeTools gateway m s).toolCallsRemaining :=
  foldl_dec_nonneg _ h

theorem run_task_loop_total (producer : ConversationState → Message)
    (gateway : String → String → String) :
    ∀ (fuel : Nat) (s : ConversationState) (c : Nat),
      0 ≤ s.toolCallsRemaining → s.toolCallsRemaining.toNat < fuel →
      ∃ s' k, run_task_loop producer gateway fuel s c = some (s', c + k) ∧
        k ≤ s.toolCallsRemaining.toNat + 1 ∧ 0 ≤ s'.toolCallsRemaining := by
  intro fuel
  induction fuel with
  | zero => intro s c _ hf; omega
  | succ n ih =>
    intro s c h hf
    set m := producer s with hm
    set s1 : ConversationState := { s with messageLog := s.messageLog ++ [m] } with hs1
    have hs1r : s1.toolCallsRemaining = s.toolCallsRemaining := rfl
    by_cases hd : Decide m s1 = true
    · -- continuation: invoke tools, budget strictly decreases
      have hd' : (!m.toolInvocations.isEmpty) = true ∧
          decide (0 < s1.toolCallsRemaining) = true := by
        simpa [Decide, Bool.and_eq_true] using hd
      have hne : m.toolInvocations ≠ [] := by
        simpa using hd'.1
      have hpos : 0 < s.toolCallsRemaining := by
        have := hd'.2
        rw [hs1r] at this
        exact of_decide_eq_true this
      set s2 := InvokeTools gateway m s1 with hs2
      have hs2r : s2.toolCallsRemaining =
          m.toolInvocations.foldl (fun r _ => decrementBudget r) s.toolCallsRemaining := rfl
      have h2nonneg : 0 ≤ s2.toolCallsRemaining := by
        rw [hs2r]; exact foldl_dec_nonneg _ h
      have h2dec : s2.toolCallsRemaining ≤ s.toolCallsRemaining - 1 := by
        rw [hs2r]; exact foldl_dec_decreases hne (by omega)
      have hfn : s2.toolCallsRemaining.toNat < n := by omega
      obtain ⟨s', k', heq, hk', hs'⟩ := ih s2 (c + 1) h2nonneg hfn
      refine ⟨s', 1 + k', ?_, by omega, hs'⟩
      have hstep : run_task_loop producer gateway (n + 1) s c =
          run_task_loop producer gateway n s2 (c + 1) := by
        simp only [run_task_loop, ← hm, ← hs1, hd, if_pos, ← hs2]
      rw [hstep, heq]
      congr 2
      omega
    · -- finalize immediately
      refine ⟨s1, 1, ?_, by omega, by rw [hs1r]; exact h⟩
      simp only [run_task_loop, ← hm, ← hs1, hd, if_neg]
      simp [Bool.not_eq_true] at hd
      simp [hd]

/-- C1: for every task execution (any producer and gateway, any starting
state with a non-negative budget), the remaining-tool-call budget never
becomes negative under any number of `InvokeTools` steps, and with fuel
`initialToolCallsRemaining + 1` the loop reaches `Finalize` — returning a
final state — after at most `initialToolCallsRemaining + 1` `Produce`
steps, regardless of the continuation decisions taken. -/
theorem task_graph_loop_terminates (producer : ConversationState → Message)
    (gateway : String → String → String) (s : ConversationState)
    (h : 0 ≤ s.toolCallsRemaining) :
    (∀ msgs : List Message,
        0 ≤ (msgs.foldl (fun st m => InvokeTools gateway m st) s).toolCallsRemaining) ∧
    ∃ s' n, run_task_loop producer gateway (s.toolCallsRemaining.toNat + 1) s 0 =
        some (s', n) ∧
      n ≤ s.toolCallsRemaining.toNat + 1 ∧ 0 ≤ s'.toolCallsRemaining := by
  constructor
  · intro msgs
    induction msgs generalizing s with
    | nil => exact h
    | cons m rest ih => exact ih _ (invokeTools_nonneg gateway m h)
  · obtain ⟨s', k, heq, hk, hs'⟩ :=
      run_task_loop_total producer gateway (s.toolCallsRemaining.toNat + 1) s 0 h
        (Nat.lt_succ_self _)
    exact ⟨s', k, by simpa using heq, hk, hs'⟩

/-- A concrete producer that always requests one tool invocation. -/
def producer0 : ConversationState → Message :=
  fun _ => ⟨Role.producer, "draft report", [("get_stock_data", "AAPL")]⟩

/-- A concrete deterministic stand-in tool gateway. -/
def gateway0 : String → String → String :=
  fun n a => n ++ "(" ++ a ++ ")"

/-- A concrete starting conversation state with budget 2. -/
def cState0 : ConversationState :=
  ⟨[], "AAPL", "2025-01-01", 2⟩

theorem task_graph_loop_terminates_witness :
    0 ≤ cState0.toolCallsRemaining ∧
    ((∀ msgs : List Message,
        0 ≤ (msgs.foldl (fun st m => InvokeTools gateway0 m st) cState0).toolCallsRemaining) ∧
     ∃ s' n, run_task_loop producer0 gateway0 (cState0.toolCallsRemaining.toNat + 1) cState0 0 =
         some (s', n) ∧
       n ≤ cState0.toolCallsRemaining.toNat + 1 ∧ 0 ≤ s'.toolCallsRemaining) :=
  ⟨by decide, task_graph_loop_terminates producer0 gateway0 cState0 (by decide)⟩

/-! ### The Execute stage tolerates partial failure -/

theorem failed_agents_eq_filter (outcome : String → ProcOutcome)
    (agents : List String) :
    failed_agents outcome agents = agents.filter (fun a => agent_failed (outcome a)) := by
  induction agents with
  | nil => rfl
  | cons a rest ih =>
    unfold failed_agents at ih ⊢
    unfold run_agents_trace
    simp only [List.filter_cons]
    by_cases h : agent_failed (outcome a) = true
    · simp [h, ih]
    · simp only [Bool.not_eq_true] at h
      simp [h, ih]

theorem length_filter_eq_length_iff {α : Type} (p : α → Bool) :
    ∀ l : List α, ((l.filter p).length = l.length ↔ ∀ a ∈ l, p a = true)
  | [] => by simp
  | a :: l => by
    by_cases h : p a = true
    · simp [List.filter_cons, h, length_filter_eq_length_iff p l]
    · simp only [Bool.not_eq_true] at h
      have hle := List.length_filter_le p l
      simp [List.filter_cons, h]
      omega

theorem run_agents_trace_fst (outcome : String → ProcOutcome) :
    ∀ agents : List String, (run_agents_trace outcome agents).map Prod.fst = agents
  | [] => rfl
  | a :: rest => by simp [run_agents_trace, run_agents_trace_fst outcome rest]

/-- C5: the `run_agents` loop processes every task in the batch in order —
a timeout or non-zero exit is recorded as that task's failure without
aborting the loop (the trace covers all of `agents`) — and the stage
reports failure (`run_agents_ok = false`) exactly when every task in the
batch failed, so partial success counts as success. -/
theorem execute_stage_partial_failure (outcome : String → ProcOutcome)
    (agents : List String) :
    (run_agents_trace outcome agents).map Prod.fst = agents ∧
    agent_failed ProcOutcome.timeout = true ∧
    (∀ c : Nat, agent_failed (ProcOutcome.exit c) = (c != 0)) ∧
    (run_agents_ok outcome agents = false ↔
      ∀ a ∈ agents, agent_failed (outcome a) = true) := by
  refine ⟨run_agents_trace_fst outcome agents, rfl, fun _ => rfl, ?_⟩
  unfold run_agents_ok
  rw [failed_agents_eq_filter]
  have hle := List.length_filter_le (fun a => agent_failed (outcome a)) agents
  rw [← length_filter_eq_length_iff]
  constructor
  · intro h
    simp at h
    omega
  · intro h
    simp
    omega

/-! ### The result-record round trip -/

/-- C8: writing a result record to the output store as a JSON object and
reading it back yields a record field-for-field equal to the one written:
`json_to_record` is a left inverse of `record_to_json`. -/
theorem result_record_roundtrip (r : ResultDict) :
    json_to_record (record_to_json r) = some r := by
  cases r with
  | mk agent agent_name ticker date timestamp status analysis =>
    cases analysis <;> rfl

/-! ### `execute_agent`: totality, record shape, population of the analysis field -/

theorem completed_ne_error : ("completed" : String) ≠ "error" := by decide

/-- C2 counterexample: the claim "the task runner never throws: for every
TaskSpec (every agent type)" fails — for the unknown agent type `"bogus"`
`execute_agent` raises a `KeyError` (`Except.error`) instead of returning
a failed result record. -/
theorem execute_agent_throws_on_unknown_kind :
    execute_agent "bogus" "AAPL" "2025-01-01" "120000" (.ok (some "r")) =
      .error "KeyError: bogus" :=
  rfl

/-- C2 (amended): for every KNOWN agent type, `execute_agent` always
returns a result record — every runtime failure of the analyst graph is
captured into `status = "error"` with a failure-reason string in the
`analysis` field — but an unknown agent type raises `KeyError` instead
(callers reject unknown types with exit code 1 before calling it). -/
theorem execute_agent_total_on_known_kinds (a name : String)
    (h : lookupAgentName a = some name) (t d ts : String) (g : GraphRun) :
    ∃ r : ResultDict, execute_agent a t d ts g = .ok r ∧
      (r.status = "completed" ∨
        (r.status = "error" ∧
          ∃ e, r.analysis = some ("Agent execution failed: " ++ e))) := by
  unfold execute_agent
  by_cases hf : factory_map_keys.contains a = true
  · rw [if_pos hf, h]
    cases g with
    | ok report => exact ⟨_, rfl, Or.inl rfl⟩
    | fail e => exact ⟨_, rfl, Or.inr ⟨rfl, e, rfl⟩⟩
  · rw [if_neg hf, h]
    exact ⟨_, rfl, Or.inl rfl⟩

theorem execute_agent_total_on_known_kinds_witness :
    lookupAgentName "market" = some "Market Analyst" ∧
    ∃ r : ResultDict,
      execute_agent "market" "AAPL" "2025-01-01" "120000" (.fail "boom") = .ok r ∧
      (r.status = "completed" ∨
        (r.status = "error" ∧
          ∃ e, r.analysis = some ("Agent execution failed: " ++ e))) :=
  ⟨rfl, execute_agent_total_on_known_kinds "market" "Market Analyst" rfl
    "AAPL" "2025-01-01" "120000" (.fail "boom")⟩

/-- C6 counterexample: a completed record need not carry a non-empty
report — when the analyst graph finishes but its final state has no report
(`final_state.get(...)` returns `None`), the record has
`status = "completed"` with `analysis = None`, so neither a report text
nor a failure reason is populated. -/
theorem completed_record_with_empty_report :
    execute_agent "market" "AAPL" "2025-01-01" "120000" (.ok none) =
      .ok ⟨"market", "Market Analyst", "AAPL", "2025-01-01", "120000",
        "completed", none⟩ :=
  rfl

/-- C6 (amended): every result record carries a single `analysis` field
serving as report text and failure reason at once: the status is either
`"completed"` or `"error"`; the status is `"error"` exactly when an
analyst graph execution failed, and then `analysis` holds a failure-reason
string `"Agent execution failed: …"`; a completed analyst record's
`analysis` is whatever report the graph produced, possibly `None`. -/
theorem result_record_single_analysis_field (a name : String)
    (h : lookupAgentName a = some name) (t d ts : String) (g : GraphRun) :
    ∃ r : ResultDict, execute_agent a t d ts g = .ok r ∧
      (r.status = "completed" ∨ r.status = "error") ∧
      (r.status = "error" ↔
        factory_map_keys.contains a = true ∧ ∃ e, g = .fail e) ∧
      (r.status = "error" →
        ∃ e, r.analysis = some ("Agent execution failed: " ++ e)) := by
  unfold execute_agent
  by_cases hf : factory_map_keys.contains a = true
  · rw [if_pos hf, h]
    cases g with
    | ok report =>
      refine ⟨_, rfl, Or.inl rfl, ?_, ?_⟩
      · constructor
        · intro h'; exact absurd h' completed_ne_error
        · rintro ⟨_, e, he⟩; cases he
      · intro h'; exact absurd h' completed_ne_error
    | fail e =>
      exact ⟨_, rfl, Or.inr rfl, ⟨fun _ => ⟨hf, e, rfl⟩, fun _ => rfl⟩, fun _ => ⟨e, rfl⟩⟩
  · rw [if_neg hf, h]
    refine ⟨_, rfl, Or.inl rfl, ?_, ?_⟩
    · constructor
      · intro h'; exact absurd h' completed_ne_error
      · rintro ⟨hc, _⟩; exact absurd hc hf
    · intro h'; exact absurd h' completed_ne_error

theorem result_record_single_analysis_field_witness :
    lookupAgentName "news" = some "News Analyst" ∧
    ∃ r : ResultDict,
      execute_agent "news" "AAPL" "2025-01-01" "120000" (.fail "net down") = .ok r ∧
      (r.status = "completed" ∨ r.status = "error") ∧
      (r.status = "error" ↔
        factory_map_keys.contains "news" = true ∧
          ∃ e, (GraphRun.fail "net down") = .fail e) ∧
      (r.status = "error" →
        ∃ e, r.analysis = some ("Agent execution failed: " ++ e)) :=
  ⟨rfl, result_record_single_analysis_field "news" "News Analyst" rfl
    "AAPL" "2025-01-01" "120000" (.fail "net down")⟩

/-- C10: for every known agent type the record returned by
`execute_agent` is a mapping with exactly the seven keys `agent`,
`agent_name`, `ticker`, `date`, `timestamp`, `status`, `analysis` (in the
dict literal's order); its status is `"completed"` or `"error"`; and for
every non-analyst agent type (not in `factory_map`) the status is always
`"completed"` with the placeholder analysis text. -/
theorem execute_agent_record_shape (a name : String)
    (h : lookupAgentName a = some name) (t d ts : String) (g : GraphRun) :
    ∃ r : ResultDict, execute_agent a t d ts g = .ok r ∧
      (record_to_json r).map Prod.fst =
        ["agent", "agent_name", "ticker", "date", "timestamp", "status", "analysis"] ∧
      (r.status = "completed" ∨ r.status = "error") ∧
      (factory_map_keys.contains a = false →
        r.status = "completed" ∧
        r.analysis = some ("Analysis from " ++ name ++ " for " ++ t ++ " (placeholder)")) := by
  unfold execute_agent
  by_cases hf : factory_map_keys.contains a = true
  · rw [if_pos hf, h]
    cases g with
    | ok report =>
      refine ⟨_, rfl, rfl, Or.inl rfl, ?_⟩
      intro hc; rw [hc] at hf; cases hf
    | fail e =>
      refine ⟨_, rfl, rfl, Or.inr rfl, ?_⟩
      intro hc; rw [hc] at hf; cases hf
  · rw [if_neg hf, h]
    exact ⟨_, rfl, rfl, Or.inl rfl, fun _ => ⟨rfl, rfl⟩⟩

theorem execute_agent_record_shape_witness :
    lookupAgentName "bull" = some "Bull Researcher" ∧
    ∃ r : ResultDict, execute_agent "bull" "NVDA" "2025-01-01" "120000" (.ok none) = .ok r ∧
      (record_to_json r).map Prod.fst =
        ["agent", "agent_name", "ticker", "date", "timestamp", "status", "analysis"] ∧
      (r.status = "completed" ∨ r.status = "error") ∧
      (factory_map_keys.contains "bull" = false →
        r.status = "completed" ∧
        r.analysis = some ("Analysis from Bull Researcher for NVDA (placeholder)")) :=
  ⟨rfl, execute_agent_record_shape "bull" "Bull Researcher" rfl
    "NVDA" "2025-01-01" "120000" (.ok none)⟩

/-! ### Ticker normalization -/

/-- C9 counterexample: `cli/independent_agent.py` is a public entry point
that does not normalize the ticker: for the lower-case input `"aapl"` both
the persisted record's ticker field and the output directory path
component stay `"aapl"` instead of the upper-cased `"AAPL"`. -/
theorem independent_agent_ticker_not_normalized :
    independent_agent_record_ticker "aapl" = "aapl" ∧
    independent_agent_record_ticker "aapl" ≠ py_upper "aapl" ∧
    independent_agent_output_path "results" "aapl" "2025-01-01" =
      ["results", "aapl", "2025-01-01"] ∧
    independent_agent_output_path "results" "aapl" "2025-01-01" ≠
      ["results", py_upper "aapl", "2025-01-01"] :=
  ⟨rfl, by decide, rfl, by decide⟩

/-- C9 (amended): the three cited entry points — `agent run` of
`cli/agents.py`, `run` of `cli/run_all_agents.py` and the
`AnalysisOrchestrator` of `scripts/master_workflow.py` — upper-case the
ticker before use: the persisted record's ticker field and the output
directory path component equal the upper-cased input; the unused
`cli/independent_agent.py` runner does not normalize. -/
theorem cited_entry_points_normalize_ticker
    (a t d ts outDir : String) (g : GraphRun) :
    agents_run_output_path outDir t d = [outDir, py_upper t, d] ∧
    (∀ r : ResultDict, agents_run_execute a t d ts g = .ok r → r.ticker = py_upper t) ∧
    run_all_normalize_ticker t = py_upper t ∧
    orchestrator_ticker t = py_upper t := by
  refine ⟨rfl, ?_, rfl, rfl⟩
  intro r hr
  unfold agents_run_execute execute_agent at hr
  by_cases hf : factory_map_keys.contains a = true
  · rw [if_pos hf] at hr
    cases hl : lookupAgentName a with
    | some name => rw [hl] at hr; cases hr; rfl
    | none => rw [hl] at hr; cases hr
  · rw [if_neg hf] at hr
    cases hl : lookupAgentName a with
    | some name => rw [hl] at hr; cases hr; rfl
    | none => rw [hl] at hr; cases hr

theorem cited_entry_points_normalize_ticker_witness :
    agents_run_output_path "results" "nvda" "2025-01-01" =
      ["results", py_upper "nvda", "2025-01-01"] ∧
    (⟨"market", "Market Analyst", "NVDA", "2025-01-01", "120000", "completed",
        some "rep"⟩ : ResultDict).ticker = py_upper "nvda" ∧
    run_all_normalize_ticker "nvda" = py_upper "nvda" ∧
    orchestrator_ticker "nvda" = py_upper "nvda" := by
  have h := cited_entry_points_normalize_ticker "market" "nvda" "2025-01-01" "120000"
    "results" (.ok (some "rep"))
  exact ⟨h.1, h.2.1 _ rfl, h.2.2.1, h.2.2.2⟩

/-! ### Batch validation in `run_all_agents` -/

/-- A concrete stand-in for the per-agent execution used by witnesses:
every agent's graph run succeeds with a fixed report. -/
def exec0 : String → Except String ResultDict :=
  fun a => execute_agent a "AAPL" "2025-01-01" "120000" (.ok (some "report"))

/-- C4 counterexample: a task-ID list with a duplicate is NOT rejected —
`--agents "market market"` passes validation as `["market", "market"]`
(not `Nodup`), the run exits normally and the duplicated task executes
twice, writing two result records. -/
theorem run_all_agents_accepts_duplicate_ids :
    choose_agents (some "market market") = .ok ["market", "market"] ∧
    ¬ (["market", "market"] : List String).Nodup ∧
    (run_all_agents true (some "market market") exec0).written =
      ["market_analysis.json", "market_analysis.json"] ∧
    (run_all_agents true (some "market market") exec0).exitCode = none :=
  ⟨rfl, by decide, rfl, rfl⟩

/-- C4 (amended): `run` of `cli/run_all_agents.py` rejects an unknown task
identifier before any execution — the command exits with code 1, no agent
is executed and zero result records are written — but duplicate task IDs
pass validation and are executed once each, and `master_workflow`'s
`validate_setup` does not check task identifiers at all. -/
theorem run_all_agents_rejects_unknown (s : String)
    (hblank : s.data.all Char.isWhitespace = false)
    (hbad : ∃ a ∈ tokenize_agents s, lookupAgentName a = none)
    (exec : String → Except String ResultDict) :
    run_all_agents true (some s) exec = ⟨some 1, [], []⟩ := by
  have hfil : (tokenize_agents s).filter (fun a => (lookupAgentName a).isNone) ≠ [] := by
    obtain ⟨a, ha, hn⟩ := hbad
    intro hemp
    have := List.filter_eq_nil_iff.mp hemp a ha
    simp [hn] at this
  have hbe : ((tokenize_agents s).filter (fun a => (lookupAgentName a).isNone)).isEmpty
      = false := by
    cases hcase : (tokenize_agents s).filter (fun a => (lookupAgentName a).isNone) with
    | nil => exact absurd hcase hfil
    | cons x xs => rfl
  have hch : choose_agents (some s) =
      .error ((tokenize_agents s).filter (fun a => (lookupAgentName a).isNone)) := by
    unfold choose_agents
    simp [hblank, hbe]
  unfold run_all_agents
  rw [hch]
  rfl

theorem run_all_agents_rejects_unknown_witness :
    ("bogus".data.all Char.isWhitespace = false) ∧
    (∃ a ∈ tokenize_agents "bogus", lookupAgentName a = none) ∧
    run_all_agents true (some "bogus") exec0 = ⟨some 1, [], []⟩ :=
  ⟨by decide, by decide,
    run_all_agents_rejects_unknown "bogus" (by decide) (by decide) exec0⟩

/-! ### Exit codes of the master workflow -/

/-- An environment where validation succeeds, every agent subprocess exits
non-zero (the Execute stage produces zero completions), and discovery
still finds a (stale) JSON record so the rest of the pipeline succeeds. -/
def envAllFailed : WorkflowEnv :=
  { venvExists := true, cliExists := true, converterExists := true,
    ticker := "INTC", dateValid := true,
    agents := ["market", "fundamentals", "news"],
    agentOutcome := fun _ => .exit 1,
    resultsDirExists := true, jsonFiles := ["stale.json"], convertOk := true }

/-- C3 counterexample: in `envAllFailed` the Execute stage produced zero
completions (`run_agents_ok = false`), yet the process exits 0, not the
claimed 2 — so "exit code 0 iff at least one completed task" and "2 when
Execute produced zero completions" both fail on the code. -/
theorem master_workflow_exits_zero_without_completions :
    run_agents_ok envAllFailed.agentOutcome envAllFailed.agents = false ∧
    main_exit_code envAllFailed = 0 ∧
    main_exit_code envAllFailed ≠ 2 :=
  ⟨rfl, rfl, by decide⟩

/-- C3 (amended): the batch command's exit code is 0 exactly when the
Validate, Discover and Transform (convert-to-word) stages all succeed, and
1 otherwise; exit code 2 is never produced, and the Execute stage's
outcome (which agents failed) never affects the exit code. -/
theorem master_workflow_exit_code_semantics (e : WorkflowEnv) :
    (main_exit_code e =
      if validate_setup e && discover_ok e && e.convertOk then 0 else 1) ∧
    main_exit_code e ≠ 2 ∧
    (∀ o : String → ProcOutcome,
      main_exit_code { e with agentOutcome := o } = main_exit_code e) := by
  refine ⟨?_, ?_, fun o => rfl⟩
  · unfold main_exit_code workflow_run
    by_cases h1 : validate_setup e
    · by_cases h2 : discover_ok e
      · by_cases h3 : e.convertOk
        · simp [h1, h2, h3]
        · simp only [Bool.not_eq_true] at h3
          simp [h1, h2, h3]
      · simp only [Bool.not_eq_true] at h2
        simp [h1, h2]
    · simp only [Bool.not_eq_true] at h1
      simp [h1]
  · unfold main_exit_code
    by_cases h : workflow_run e
    · simp [h]
    · simp only [Bool.not_eq_true] at h
      simp [h]

/-! ### The Transform stage -/

theorem batch_individual_processes_all (render : String → Except String String) :
    ∀ files : List String,
      batch_json_to_word_individual render files =
        files.filterMap (fun f => (render f).toOption)
  | [] => rfl
  | f :: rest => by
    unfold batch_json_to_word_individual
    cases hr : render f with
    | ok out =>
      simp [List.filterMap_cons, hr, batch_individual_processes_all render rest,
        Except.toOption]
    | error e =>
      simp [List.filterMap_cons, hr, batch_individual_processes_all render rest,
        Except.toOption]

/-- C7: per-record rendering failures in the Transform stage are skipped,
never fatal: `batch_json_to_word` attempts every discovered file and
returns exactly the successes (a failure does not abort the loop), a
per-file failure never makes the converter script exit non-zero (only a
missing input directory does), `convert_to_word` succeeds for any mixture
of per-record outcomes once the batch of discovered records is non-empty,
and the workflow then proceeds to the summary stage. -/
theorem transform_failures_skipped_not_fatal (files : List String)
    (render : String → Except String String) (e : WorkflowEnv) :
    batch_json_to_word_individual render files =
      files.filterMap (fun f => (render f).toOption) ∧
    json_to_word_script_exit true = 0 ∧
    (files ≠ [] → convert_to_word true files render true = true) ∧
    (validate_setup e = true → discover_ok e = true → e.convertOk = true →
      workflow_run e = true) := by
  refine ⟨batch_individual_processes_all render files, rfl, ?_, ?_⟩
  · intro hne
    unfold convert_to_word json_to_word_script_exit
    have hie : files.isEmpty = false := by
      cases files with
      | nil => exact absurd rfl hne
      | cons x xs => rfl
    simp [hie]
  · intro h1 h2 h3
    unfold workflow_run
    simp [h1, h2, h3]

/-- A concrete renderer failing on the first file and succeeding on the
second. -/
def render1 : String → Except String String :=
  fun f => if f == "a.json" then .error "render failed" else .ok (f ++ ".docx")

/-- An environment whose Discover stage found two JSON records and whose
conversion produced at least one document. -/
def envDiscovered : WorkflowEnv :=
  { venvExists := true, cliExists := true, converterExists := true,
    ticker := "INTC", dateValid := true,
    agents := ["market"],
    agentOutcome := fun _ => .exit 0,
    resultsDirExists := true, jsonFiles := ["a.json", "b.json"], convertOk := true }

theorem transform_failures_skipped_not_fatal_witness :
    batch_json_to_word_individual render1 ["a.json", "b.json"] = ["b.json.docx"] ∧
    (["a.json", "b.json"] : List String) ≠ [] ∧
    convert_to_word true ["a.json", "b.json"] render1 true = true ∧
    validate_setup envDiscovered = true ∧ discover_ok envDiscovered = true ∧
    envDiscovered.convertOk = true ∧
    workflow_run envDiscovered = true := by
  have h := transform_failures_skipped_not_fatal ["a.json", "b.json"] render1 envDiscovered
  exact ⟨rfl, by decide, h.2.2.1 (by decide), rfl, rfl, rfl, h.2.2.2 rfl rfl rfl⟩

end GitCode
